import Mathlib

/-!
# Verification of `pybamm/models/submodels/potential.py`

This file embeds the `Potential` submodel of PyBaMM: the two methods
`get_derived_open_circuit_potentials` and `get_derived_reaction_overpotentials`
build dictionaries of derived symbolic expressions from two input expressions.

The symbolic expression framework (`pybamm.Symbol` with its `domain` attribute,
`pybamm.Broadcast`, `pybamm.Integral`, `pybamm.BoundaryValue`, arithmetic on
symbols, and the parameter bundle) lives outside the given source fragment, so
it is modelled from the spec as a syntax tree `Expr` together with a
parameterized evaluation semantics `evalE`.  The two methods themselves are
translated line by line from the source.
-/

namespace PotentialSubmodel

/-- Modelled from the spec: the externally supplied symbolic expression type
(`pybamm.Symbol`), "a symbolic scalar/field expression type supporting
broadcasting over named spatial domains, a spatial integration operator, a
boundary-value extraction operator".  Atoms stand for externally constructed
expressions and carry their `domain` attribute; `param` stands for scalar
constants from the parameter bundle; `spatialVar` for spatial variables such
as `x_n`, `x_p`. -/
inductive Expr : Type where
  | atom : Nat → List String → Expr
  | param : String → Expr
  | spatialVar : String → Expr
  | broadcast : Expr → List String → Expr
  | integral : Expr → Expr → Expr
  | boundaryValue : Expr → String → Expr
  | add : Expr → Expr → Expr
  | sub : Expr → Expr → Expr
  | mul : Expr → Expr → Expr
  | div : Expr → Expr → Expr
deriving DecidableEq

/-- Modelled from the spec: the `domain` attribute of a symbol.  An atom
carries the domain it was constructed with, `pybamm.Broadcast(e, d)` has
domain `d`, scalar constants have the empty domain.  The source fragment
only ever reads the `domain` of its two input expressions. -/
def Expr.domain : Expr → List String
  | .atom _ d => d
  | .param _ => []
  | .spatialVar _ => []
  | .broadcast _ d => d
  | .integral _ _ => []
  | .boundaryValue _ _ => []
  | .add a b => if a.domain = [] then b.domain else a.domain
  | .sub a b => if a.domain = [] then b.domain else a.domain
  | .mul a b => if a.domain = [] then b.domain else a.domain
  | .div a b => if a.domain = [] then b.domain else a.domain

/-- Modelled from the spec: "a parameter bundle exposing scalar constants
(geometric lengths, reference potentials, a potential scale)".  The fields
are the five attributes the source fragment reads. -/
structure Parameters : Type where
  l_n : Expr
  l_p : Expr
  U_n_ref : Expr
  U_p_ref : Expr
  potential_scale : Expr
deriving DecidableEq

/-- The `Potential` submodel class: its only state is `set_of_parameters`,
stored by `__init__`. -/
structure Potential : Type where
  set_of_parameters : Parameters
deriving DecidableEq

/-- Modelled from the spec: `pybamm.standard_spatial_vars.x_n`. -/
def x_n : Expr := .spatialVar "x_n"

/-- Modelled from the spec: `pybamm.standard_spatial_vars.x_p`. -/
def x_p : Expr := .spatialVar "x_p"

/-- The broadcast-if-necessary step for the negative-electrode input:
`if e.domain == []: e = pybamm.Broadcast(e, ["negative electrode"])`. -/
def broadcastNeg (e : Expr) : Expr :=
  if e.domain = [] then .broadcast e ["negative electrode"] else e

/-- The broadcast-if-necessary step for the positive-electrode input:
`if e.domain == []: e = pybamm.Broadcast(e, ["positive electrode"])`. -/
def broadcastPos (e : Expr) : Expr :=
  if e.domain = [] then .broadcast e ["positive electrode"] else e

/-- `Potential.get_derived_open_circuit_potentials(self, ocp_n, ocp_p)`,
translated line by line.  The method mutates nothing, so the state component
of the result is the unchanged `self`; the mapping is the returned dict in
source order. -/
def get_derived_open_circuit_potentials (self : Potential) (ocp_n ocp_p : Expr) :
    Potential × List (String × Expr) :=
  let param := self.set_of_parameters
  let ocp_n := broadcastNeg ocp_n
  let ocp_p := broadcastPos ocp_p
  let ocp_n_av := Expr.div (.integral ocp_n x_n) param.l_n
  let ocp_p_av := Expr.div (.integral ocp_p x_p) param.l_p
  let ocp_n_left := Expr.boundaryValue ocp_n "left"
  let ocp_p_right := Expr.boundaryValue ocp_p "right"
  let ocv_av := Expr.sub ocp_p_av ocp_n_av
  let ocv := Expr.sub ocp_p_right ocp_n_left
  let ocp_n_dim := Expr.add param.U_n_ref (.mul param.potential_scale ocp_n)
  let ocp_p_dim := Expr.add param.U_p_ref (.mul param.potential_scale ocp_p)
  let ocp_n_av_dim := Expr.add param.U_n_ref (.mul param.potential_scale ocp_n_av)
  let ocp_p_av_dim := Expr.add param.U_p_ref (.mul param.potential_scale ocp_p_av)
  let ocp_n_left_dim := Expr.add param.U_n_ref (.mul param.potential_scale ocp_n_left)
  let ocp_p_right_dim := Expr.add param.U_p_ref (.mul param.potential_scale ocp_p_right)
  let ocv_av_dim := Expr.sub ocp_p_av_dim ocp_n_av_dim
  let ocv_dim := Expr.sub ocp_p_right_dim ocp_n_left_dim
  (self,
    [("Negative electrode open circuit potential", ocp_n),
     ("Positive electrode open circuit potential", ocp_p),
     ("Average negative electrode open circuit potential", ocp_n_av),
     ("Average positive electrode open circuit potential", ocp_p_av),
     ("Average open circuit voltage", ocv_av),
     ("Measured open circuit voltage", ocv),
     ("Negative electrode open circuit potential [V]", ocp_n_dim),
     ("Positive electrode open circuit potential [V]", ocp_p_dim),
     ("Average negative electrode open circuit potential [V]", ocp_n_av_dim),
     ("Average positive electrode open circuit potential [V]", ocp_p_av_dim),
     ("Average open circuit voltage [V]", ocv_av_dim),
     ("Measured open circuit voltage [V]", ocv_dim)])

/-- `Potential.get_derived_reaction_overpotentials(self, eta_r_n, eta_r_p)`,
translated line by line. -/
def get_derived_reaction_overpotentials (self : Potential) (eta_r_n eta_r_p : Expr) :
    Potential × List (String × Expr) :=
  let param := self.set_of_parameters
  let eta_r_n := broadcastNeg eta_r_n
  let eta_r_p := broadcastPos eta_r_p
  let eta_r_n_av := Expr.div (.integral eta_r_n x_n) param.l_n
  let eta_r_p_av := Expr.div (.integral eta_r_p x_p) param.l_p
  let eta_r_av := Expr.sub eta_r_p_av eta_r_n_av
  let eta_r_n_dim := Expr.mul param.potential_scale eta_r_n
  let eta_r_p_dim := Expr.mul param.potential_scale eta_r_p
  let eta_r_n_av_dim := Expr.mul param.potential_scale eta_r_n_av
  let eta_r_p_av_dim := Expr.mul param.potential_scale eta_r_p_av
  let eta_r_av_dim := Expr.mul param.potential_scale eta_r_av
  (self,
    [("Negative reaction overpotential", eta_r_n),
     ("Positive reaction overpotential", eta_r_p),
     ("Average negative reaction overpotential", eta_r_n_av),
     ("Average positive reaction overpotential", eta_r_p_av),
     ("Average reaction overpotential", eta_r_av),
     ("Negative reaction overpotential [V]", eta_r_n_dim),
     ("Positive reaction overpotential [V]", eta_r_p_dim),
     ("Average negative reaction overpotential [V]", eta_r_n_av_dim),
     ("Average positive reaction overpotential [V]", eta_r_p_av_dim),
     ("Average reaction overpotential [V]", eta_r_av_dim)])

/-- Modelled from the spec: an interpretation of the externally supplied
expression framework.  Atoms, parameters and spatial variables are assigned
values; the spatial integration and boundary-value extraction operators are
kept uninterpreted (an arbitrary value for each application), since their
semantics lives outside the fragment. -/
structure Env : Type where
  atomVal : Nat → ℚ
  paramVal : String → ℚ
  spatialVal : String → ℚ
  integralVal : Expr → Expr → ℚ
  boundaryVal : Expr → String → ℚ

/-- Modelled from the spec: evaluation of an expression under an
interpretation.  Arithmetic nodes evaluate arithmetically; broadcasting a
field does not change its value; integrals and boundary values take the
value the interpretation assigns them. -/
def evalE (ρ : Env) : Expr → ℚ
  | .atom n _ => ρ.atomVal n
  | .param s => ρ.paramVal s
  | .spatialVar s => ρ.spatialVal s
  | .broadcast e _ => evalE ρ e
  | .integral e x => ρ.integralVal e x
  | .boundaryValue e s => ρ.boundaryVal e s
  | .add a b => evalE ρ a + evalE ρ b
  | .sub a b => evalE ρ a - evalE ρ b
  | .mul a b => evalE ρ a * evalE ρ b
  | .div a b => evalE ρ a / evalE ρ b

/-- C2: `get_derived_open_circuit_potentials` takes the boundary value of the
negative-electrode expression at the left face and of the positive-electrode
expression at the right face; the "Measured open circuit voltage" entry is the
positive boundary value minus the negative one, and the "Average open circuit
voltage" entry is the positive spatial average minus the negative one. -/
theorem measured_and_average_ocv_pairing (self : Potential) (a b : Expr) :
    ((get_derived_open_circuit_potentials self a b).2.lookup
        "Measured open circuit voltage" =
      some (.sub (.boundaryValue (broadcastPos b) "right")
        (.boundaryValue (broadcastNeg a) "left"))) ∧
    ((get_derived_open_circuit_potentials self a b).2.lookup
        "Average open circuit voltage" =
      some (.sub
        (.div (.integral (broadcastPos b) x_p) self.set_of_parameters.l_p)
        (.div (.integral (broadcastNeg a) x_n) self.set_of_parameters.l_n))) :=
  ⟨rfl, rfl⟩

/-- C3: in both methods, each electrode's average entry is the spatial
integral of the (broadcast) electrode expression over that electrode's
spatial variable, divided by that electrode's length (`param.l_n` for
negative, `param.l_p` for positive). -/
theorem average_entries_length_normalized (self : Potential) (a b : Expr) :
    ((get_derived_open_circuit_potentials self a b).2.lookup
        "Average negative electrode open circuit potential" =
      some (.div (.integral (broadcastNeg a) x_n) self.set_of_parameters.l_n)) ∧
    ((get_derived_open_circuit_potentials self a b).2.lookup
        "Average positive electrode open circuit potential" =
      some (.div (.integral (broadcastPos b) x_p) self.set_of_parameters.l_p)) ∧
    ((get_derived_reaction_overpotentials self a b).2.lookup
        "Average negative reaction overpotential" =
      some (.div (.integral (broadcastNeg a) x_n) self.set_of_parameters.l_n)) ∧
    ((get_derived_reaction_overpotentials self a b).2.lookup
        "Average positive reaction overpotential" =
      some (.div (.integral (broadcastPos b) x_p) self.set_of_parameters.l_p)) :=
  ⟨rfl, rfl, rfl, rfl⟩

/-- C4: in both methods, each input is broadcast to its electrode's spatial
domain exactly when its `domain` attribute is the empty list, and is used as
given otherwise: the per-electrode entry is
`if domain = [] then Broadcast(input, electrode) else input`. -/
theorem broadcast_iff_empty_domain (self : Potential) (a b : Expr) :
    ((get_derived_open_circuit_potentials self a b).2.lookup
        "Negative electrode open circuit potential" =
      some (if a.domain = [] then .broadcast a ["negative electrode"] else a)) ∧
    ((get_derived_open_circuit_potentials self a b).2.lookup
        "Positive electrode open circuit potential" =
      some (if b.domain = [] then .broadcast b ["positive electrode"] else b)) ∧
    ((get_derived_reaction_overpotentials self a b).2.lookup
        "Negative reaction overpotential" =
      some (if a.domain = [] then .broadcast a ["negative electrode"] else a)) ∧
    ((get_derived_reaction_overpotentials self a b).2.lookup
        "Positive reaction overpotential" =
      some (if b.domain = [] then .broadcast b ["positive electrode"] else b)) :=
  ⟨rfl, rfl, rfl, rfl⟩

/-- C5: `get_derived_open_circuit_potentials` returns one mapping with exactly
the twelve named entries, in source order. -/
theorem ocp_mapping_keys (self : Potential) (a b : Expr) :
    (get_derived_open_circuit_potentials self a b).2.map Prod.fst =
      ["Negative electrode open circuit potential",
       "Positive electrode open circuit potential",
       "Average negative electrode open circuit potential",
       "Average positive electrode open circuit potential",
       "Average open circuit voltage",
       "Measured open circuit voltage",
       "Negative electrode open circuit potential [V]",
       "Positive electrode open circuit potential [V]",
       "Average negative electrode open circuit potential [V]",
       "Average positive electrode open circuit potential [V]",
       "Average open circuit voltage [V]",
       "Measured open circuit voltage [V]"] :=
  rfl

/-- C6: `get_derived_reaction_overpotentials` returns one mapping with exactly
the ten named entries, in source order, and in particular no boundary-value
entries. -/
theorem overpotential_mapping_keys (self : Potential) (a b : Expr) :
    (get_derived_reaction_overpotentials self a b).2.map Prod.fst =
      ["Negative reaction overpotential",
       "Positive reaction overpotential",
       "Average negative reaction overpotential",
       "Average positive reaction overpotential",
       "Average reaction overpotential",
       "Negative reaction overpotential [V]",
       "Positive reaction overpotential [V]",
       "Average negative reaction overpotential [V]",
       "Average positive reaction overpotential [V]",
       "Average reaction overpotential [V]"] :=
  rfl

/-- C7: in `get_derived_reaction_overpotentials`, every "[V]"-keyed entry is
`param.potential_scale` times its dimensionless counterpart, with no
reference-potential offset. -/
theorem overpotential_dimensional_scaling (self : Potential) (a b : Expr) :
    ((get_derived_reaction_overpotentials self a b).2.lookup
        "Negative reaction overpotential [V]" =
      ((get_derived_reaction_overpotentials self a b).2.lookup
        "Negative reaction overpotential").map
        (fun e => .mul self.set_of_parameters.potential_scale e)) ∧
    ((get_derived_reaction_overpotentials self a b).2.lookup
        "Positive reaction overpotential [V]" =
      ((get_derived_reaction_overpotentials self a b).2.lookup
        "Positive reaction overpotential").map
        (fun e => .mul self.set_of_parameters.potential_scale e)) ∧
    ((get_derived_reaction_overpotentials self a b).2.lookup
        "Average negative reaction overpotential [V]" =
      ((get_derived_reaction_overpotentials self a b).2.lookup
        "Average negative reaction overpotential").map
        (fun e => .mul self.set_of_parameters.potential_scale e)) ∧
    ((get_derived_reaction_overpotentials self a b).2.lookup
        "Average positive reaction overpotential [V]" =
      ((get_derived_reaction_overpotentials self a b).2.lookup
        "Average positive reaction overpotential").map
        (fun e => .mul self.set_of_parameters.potential_scale e)) ∧
    ((get_derived_reaction_overpotentials self a b).2.lookup
        "Average reaction overpotential [V]" =
      ((get_derived_reaction_overpotentials self a b).2.lookup
        "Average reaction overpotential").map
        (fun e => .mul self.set_of_parameters.potential_scale e)) :=
  ⟨rfl, rfl, rfl, rfl, rfl⟩

/-- C9: in both methods, an input whose `domain` attribute is non-empty
appears in the corresponding per-electrode entry exactly as given, unmodified
and unwrapped; each input is judged on its own domain alone, independently of
the other input's domain. -/
theorem nonempty_domain_input_unchanged (self : Potential) (a b : Expr) :
    (a.domain ≠ [] →
      ((get_derived_open_circuit_potentials self a b).2.lookup
          "Negative electrode open circuit potential" = some a) ∧
      ((get_derived_reaction_overpotentials self a b).2.lookup
          "Negative reaction overpotential" = some a)) ∧
    (b.domain ≠ [] →
      ((get_derived_open_circuit_potentials self a b).2.lookup
          "Positive electrode open circuit potential" = some b) ∧
      ((get_derived_reaction_overpotentials self a b).2.lookup
          "Positive reaction overpotential" = some b)) := by
  constructor
  · intro ha
    constructor <;>
      simp [get_derived_open_circuit_potentials, get_derived_reaction_overpotentials,
        broadcastNeg, ha, List.lookup]
  · intro hb
    constructor <;>
      simp [get_derived_open_circuit_potentials, get_derived_reaction_overpotentials,
        broadcastPos, hb, List.lookup]

/-- C9 witness: a concrete domain-tagged negative input passes through both
methods unchanged even though it is paired with an untagged positive input,
and a concrete domain-tagged positive input passes through unchanged even
though it is paired with an untagged negative input. -/
theorem nonempty_domain_input_unchanged_witness :
    (((get_derived_open_circuit_potentials
        ⟨⟨.param "l_n", .param "l_p", .param "U_n_ref", .param "U_p_ref",
          .param "potential_scale"⟩⟩
        (.atom 0 ["negative electrode"]) (.atom 1 [])).2.lookup
        "Negative electrode open circuit potential" =
      some (.atom 0 ["negative electrode"])) ∧
     ((get_derived_reaction_overpotentials
        ⟨⟨.param "l_n", .param "l_p", .param "U_n_ref", .param "U_p_ref",
          .param "potential_scale"⟩⟩
        (.atom 0 ["negative electrode"]) (.atom 1 [])).2.lookup
        "Negative reaction overpotential" = some (.atom 0 ["negative electrode"]))) ∧
    (((get_derived_open_circuit_potentials
        ⟨⟨.param "l_n", .param "l_p", .param "U_n_ref", .param "U_p_ref",
          .param "potential_scale"⟩⟩
        (.atom 0 []) (.atom 1 ["positive electrode"])).2.lookup
        "Positive electrode open circuit potential" =
      some (.atom 1 ["positive electrode"])) ∧
     ((get_derived_reaction_overpotentials
        ⟨⟨.param "l_n", .param "l_p", .param "U_n_ref", .param "U_p_ref",
          .param "potential_scale"⟩⟩
        (.atom 0 []) (.atom 1 ["positive electrode"])).2.lookup
        "Positive reaction overpotential" = some (.atom 1 ["positive electrode"]))) :=
  ⟨(nonempty_domain_input_unchanged
      ⟨⟨.param "l_n", .param "l_p", .param "U_n_ref", .param "U_p_ref",
        .param "potential_scale"⟩⟩
      (.atom 0 ["negative electrode"]) (.atom 1 [])).1 (by decide),
   (nonempty_domain_input_unchanged
      ⟨⟨.param "l_n", .param "l_p", .param "U_n_ref", .param "U_p_ref",
        .param "potential_scale"⟩⟩
      (.atom 0 []) (.atom 1 ["positive electrode"])).2 (by decide)⟩

/-- A concrete parameter bundle whose constants are named parameter symbols. -/
def P0 : Parameters :=
  ⟨.param "l_n", .param "l_p", .param "U_n_ref", .param "U_p_ref",
    .param "potential_scale"⟩

/-- A concrete submodel instance over `P0`. -/
def S0 : Potential := ⟨P0⟩

/-- A concrete interpretation: `U_n_ref = 1`, `U_p_ref = 4`, every other
constant `1`, all atoms, spatial variables, integrals and boundary values `0`. -/
def ρ0 : Env :=
  ⟨fun _ => 0,
   fun s => if s = "U_n_ref" then 1 else if s = "U_p_ref" then 4 else 1,
   fun _ => 0, fun _ _ => 0, fun _ _ => 0⟩

/-- Evaluation of the affine-minus-affine pattern produced by the dimensional
open-circuit-voltage entries. -/
theorem evalE_affine_sub (ρ : Env) (u1 u2 s e1 e2 : Expr) :
    evalE ρ (.sub (.add u1 (.mul s e1)) (.add u2 (.mul s e2))) =
      evalE ρ u1 - evalE ρ u2 + evalE ρ s * evalE ρ (.sub e1 e2) := by
  simp [evalE]; ring

/-- C1 counterexample: with `U_n_ref = 1`, `U_p_ref = 4` and all dimensionless
values `0`, the "Measured open circuit voltage [V]" entry evaluates to `3`,
which is neither `U_n_ref` nor `U_p_ref` plus `potential_scale` times the
dimensionless "Measured open circuit voltage" entry, so no single electrode
reference potential gives the affine form claimed for the voltage entries. -/
theorem ocv_dim_not_single_reference_offset :
    (evalE ρ0 (((get_derived_open_circuit_potentials S0 (.atom 0 []) (.atom 1 [])).2.lookup
        "Measured open circuit voltage [V]").getD (.param "default")) ≠
      evalE ρ0 (Expr.add P0.U_n_ref (.mul P0.potential_scale
        (((get_derived_open_circuit_potentials S0 (.atom 0 []) (.atom 1 [])).2.lookup
          "Measured open circuit voltage").getD (.param "default"))))) ∧
    (evalE ρ0 (((get_derived_open_circuit_potentials S0 (.atom 0 []) (.atom 1 [])).2.lookup
        "Measured open circuit voltage [V]").getD (.param "default")) ≠
      evalE ρ0 (Expr.add P0.U_p_ref (.mul P0.potential_scale
        (((get_derived_open_circuit_potentials S0 (.atom 0 []) (.atom 1 [])).2.lookup
          "Measured open circuit voltage").getD (.param "default"))))) := by
  have hdim : ((get_derived_open_circuit_potentials S0 (.atom 0 []) (.atom 1 [])).2.lookup
      "Measured open circuit voltage [V]").getD (.param "default") =
    Expr.sub
      (.add (.param "U_p_ref") (.mul (.param "potential_scale")
        (.boundaryValue (.broadcast (.atom 1 []) ["positive electrode"]) "right")))
      (.add (.param "U_n_ref") (.mul (.param "potential_scale")
        (.boundaryValue (.broadcast (.atom 0 []) ["negative electrode"]) "left"))) := rfl
  have hdimless : ((get_derived_open_circuit_potentials S0 (.atom 0 []) (.atom 1 [])).2.lookup
      "Measured open circuit voltage").getD (.param "default") =
    Expr.sub
      (.boundaryValue (.broadcast (.atom 1 []) ["positive electrode"]) "right")
      (.boundaryValue (.broadcast (.atom 0 []) ["negative electrode"]) "left") := rfl
  constructor <;> rw [hdim, hdimless] <;> norm_num [evalE, ρ0, P0]
  rw [if_neg (by decide : ¬("U_p_ref" = "U_n_ref"))]
  norm_num

/-- C1 amended: in `get_derived_open_circuit_potentials`, each of the four
per-electrode "[V]" entries is the electrode's reference potential
(`U_n_ref` negative, `U_p_ref` positive) plus `param.potential_scale` times
its dimensionless counterpart; the two open-circuit-voltage "[V]" entries are
affine with offset the difference of the two reference potentials: under
every interpretation they evaluate to `U_p_ref - U_n_ref` plus
`potential_scale` times the dimensionless counterpart. -/
theorem dimensional_entries_affine (self : Potential) (a b : Expr) :
    ((get_derived_open_circuit_potentials self a b).2.lookup
        "Negative electrode open circuit potential [V]" =
      ((get_derived_open_circuit_potentials self a b).2.lookup
        "Negative electrode open circuit potential").map
        (fun e => .add self.set_of_parameters.U_n_ref
          (.mul self.set_of_parameters.potential_scale e))) ∧
    ((get_derived_open_circuit_potentials self a b).2.lookup
        "Positive electrode open circuit potential [V]" =
      ((get_derived_open_circuit_potentials self a b).2.lookup
        "Positive electrode open circuit potential").map
        (fun e => .add self.set_of_parameters.U_p_ref
          (.mul self.set_of_parameters.potential_scale e))) ∧
    ((get_derived_open_circuit_potentials self a b).2.lookup
        "Average negative electrode open circuit potential [V]" =
      ((get_derived_open_circuit_potentials self a b).2.lookup
        "Average negative electrode open circuit potential").map
        (fun e => .add self.set_of_parameters.U_n_ref
          (.mul self.set_of_parameters.potential_scale e))) ∧
    ((get_derived_open_circuit_potentials self a b).2.lookup
        "Average positive electrode open circuit potential [V]" =
      ((get_derived_open_circuit_potentials self a b).2.lookup
        "Average positive electrode open circuit potential").map
        (fun e => .add self.set_of_parameters.U_p_ref
          (.mul self.set_of_parameters.potential_scale e))) ∧
    (∀ ρ : Env,
      evalE ρ (((get_derived_open_circuit_potentials self a b).2.lookup
          "Average open circuit voltage [V]").getD (.param "default")) =
        evalE ρ self.set_of_parameters.U_p_ref -
          evalE ρ self.set_of_parameters.U_n_ref +
          evalE ρ self.set_of_parameters.potential_scale *
            evalE ρ (((get_derived_open_circuit_potentials self a b).2.lookup
              "Average open circuit voltage").getD (.param "default"))) ∧
    (∀ ρ : Env,
      evalE ρ (((get_derived_open_circuit_potentials self a b).2.lookup
          "Measured open circuit voltage [V]").getD (.param "default")) =
        evalE ρ self.set_of_parameters.U_p_ref -
          evalE ρ self.set_of_parameters.U_n_ref +
          evalE ρ self.set_of_parameters.potential_scale *
            evalE ρ (((get_derived_open_circuit_potentials self a b).2.lookup
              "Measured open circuit voltage").getD (.param "default"))) := by
  refine ⟨rfl, rfl, rfl, rfl, fun ρ => ?_, fun ρ => ?_⟩
  · exact evalE_affine_sub ρ self.set_of_parameters.U_p_ref
      self.set_of_parameters.U_n_ref self.set_of_parameters.potential_scale
      (.div (.integral (broadcastPos b) x_p) self.set_of_parameters.l_p)
      (.div (.integral (broadcastNeg a) x_n) self.set_of_parameters.l_n)
  · exact evalE_affine_sub ρ self.set_of_parameters.U_p_ref
      self.set_of_parameters.U_n_ref self.set_of_parameters.potential_scale
      (.boundaryValue (broadcastPos b) "right")
      (.boundaryValue (broadcastNeg a) "left")

/-- C8: both methods are pure: the submodel state comes back unchanged, the
result is defined for every input (the embedding is a total function, the
source has no raise), and equal states with equal inputs give equal
results. -/
theorem methods_pure_frame (self self2 : Potential) (a a2 b b2 : Expr)
    (hs : self = self2) (ha : a = a2) (hb : b = b2) :
    ((get_derived_open_circuit_potentials self a b).1 = self) ∧
    ((get_derived_reaction_overpotentials self a b).1 = self) ∧
    (get_derived_open_circuit_potentials self a b =
      get_derived_open_circuit_potentials self2 a2 b2) ∧
    (get_derived_reaction_overpotentials self a b =
      get_derived_reaction_overpotentials self2 a2 b2) := by
  subst hs; subst ha; subst hb
  exact ⟨rfl, rfl, rfl, rfl⟩

/-- C8 witness: the frame property at a concrete state and concrete inputs. -/
theorem methods_pure_frame_witness :
    ((get_derived_open_circuit_potentials S0 (.atom 0 []) (.atom 1 [])).1 = S0) ∧
    ((get_derived_reaction_overpotentials S0 (.atom 0 []) (.atom 1 [])).1 = S0) ∧
    (get_derived_open_circuit_potentials S0 (.atom 0 []) (.atom 1 []) =
      get_derived_open_circuit_potentials S0 (.atom 0 []) (.atom 1 [])) ∧
    (get_derived_reaction_overpotentials S0 (.atom 0 []) (.atom 1 []) =
      get_derived_reaction_overpotentials S0 (.atom 0 []) (.atom 1 [])) :=
  methods_pure_frame S0 S0 (.atom 0 []) (.atom 0 []) (.atom 1 []) (.atom 1 [])
    rfl rfl rfl

/-- C10: dimensionalization commutes with the positive-minus-negative
difference: under every interpretation, the measured and average
open-circuit-voltage "[V]" entries are the difference of the two reference
potentials plus `potential_scale` times their dimensionless entries, and the
"Average reaction overpotential [V]" entry is the "Average positive reaction
overpotential [V]" entry minus the "Average negative reaction
overpotential [V]" entry. -/
theorem dimensionalization_commutes_with_difference (self : Potential) (a b : Expr) :
    (∀ ρ : Env,
      evalE ρ (((get_derived_open_circuit_potentials self a b).2.lookup
          "Measured open circuit voltage [V]").getD (.param "default")) =
        evalE ρ (Expr.sub self.set_of_parameters.U_p_ref
            self.set_of_parameters.U_n_ref) +
          evalE ρ self.set_of_parameters.potential_scale *
            evalE ρ (((get_derived_open_circuit_potentials self a b).2.lookup
              "Measured open circuit voltage").getD (.param "default"))) ∧
    (∀ ρ : Env,
      evalE ρ (((get_derived_open_circuit_potentials self a b).2.lookup
          "Average open circuit voltage [V]").getD (.param "default")) =
        evalE ρ (Expr.sub self.set_of_parameters.U_p_ref
            self.set_of_parameters.U_n_ref) +
          evalE ρ self.set_of_parameters.potential_scale *
            evalE ρ (((get_derived_open_circuit_potentials self a b).2.lookup
              "Average open circuit voltage").getD (.param "default"))) ∧
    (∀ ρ : Env,
      evalE ρ (((get_derived_reaction_overpotentials self a b).2.lookup
          "Average reaction overpotential [V]").getD (.param "default")) =
        evalE ρ (((get_derived_reaction_overpotentials self a b).2.lookup
            "Average positive reaction overpotential [V]").getD (.param "default")) -
          evalE ρ (((get_derived_reaction_overpotentials self a b).2.lookup
            "Average negative reaction overpotential [V]").getD (.param "default"))) := by
  refine ⟨fun ρ => ?_, fun ρ => ?_, fun ρ => ?_⟩
  · show evalE ρ (.sub
        (.add self.set_of_parameters.U_p_ref
          (.mul self.set_of_parameters.potential_scale
            (.boundaryValue (broadcastPos b) "right")))
        (.add self.set_of_parameters.U_n_ref
          (.mul self.set_of_parameters.potential_scale
            (.boundaryValue (broadcastNeg a) "left")))) = _
    simp [evalE]; ring
  · show evalE ρ (.sub
        (.add self.set_of_parameters.U_p_ref
          (.mul self.set_of_parameters.potential_scale
            (.div (.integral (broadcastPos b) x_p) self.set_of_parameters.l_p)))
        (.add self.set_of_parameters.U_n_ref
          (.mul self.set_of_parameters.potential_scale
            (.div (.integral (broadcastNeg a) x_n) self.set_of_parameters.l_n)))) = _
    simp [evalE]; ring
  · show evalE ρ (.mul self.set_of_parameters.potential_scale
        (.sub (.div (.integral (broadcastPos b) x_p) self.set_of_parameters.l_p)
          (.div (.integral (broadcastNeg a) x_n) self.set_of_parameters.l_n))) = _
    simp [evalE]; ring

end PotentialSubmodel
